import Mathlib

/-!
Verification of the `update_cdn.py` CI bot script (src/py/scripts/update_cdn.py).

The script is shallowly embedded as pure Lean functions.  External commands
(the GitHub CLI, git, the HTTP HEAD request, the changelog library) are
modelled by a `World` record holding the responses the environment would give
to each call that the script performs; each embedded function returns the list
of observable external actions (`Effect`s) it performs together with the exit
behaviour of the process.

Semantic versions are embedded following the strict grammar and the precedence
rules implemented by the Python `semver` package used by the script
(`VersionInfo.parse`, comparison, `str`).
-/

/-! ## Semantic versions: data, comparison, parsing, printing -/

/-- One dot-separated prerelease identifier: numeric or alphanumeric,
as distinguished by the semver precedence rules. -/
inductive PreId where
  | num (n : Nat)
  | str (s : String)
deriving DecidableEq, Repr

/-- A parsed semantic version, mirroring `semver.VersionInfo`. -/
structure VersionInfo where
  major : Nat
  minor : Nat
  patch : Nat
  prerelease : List PreId
  build : List String
deriving DecidableEq, Repr

/-- Three-way comparison of naturals. -/
def cmpN (a b : Nat) : Ordering :=
  if a < b then Ordering.lt else if b < a then Ordering.gt else Ordering.eq

/-- Lexicographic comparison of lists from a comparison on elements:
a strict prefix is smaller. -/
def lexList (c : α → α → Ordering) : List α → List α → Ordering
  | [], [] => Ordering.eq
  | [], _ :: _ => Ordering.lt
  | _ :: _, [] => Ordering.gt
  | a :: as, b :: bs => (c a b).then (lexList c as bs)

/-- Comparison of characters by code point (ASCII order on the identifier
alphabet), as Python compares identifier strings byte-wise. -/
def cmpChar (a b : Char) : Ordering := cmpN a.toNat b.toNat

/-- Comparison of two prerelease identifiers per semver rule 11:
numeric identifiers compare numerically and are smaller than alphanumeric
identifiers, which compare in ASCII order. -/
def cmpPreId : PreId → PreId → Ordering
  | PreId.num a, PreId.num b => cmpN a b
  | PreId.num _, PreId.str _ => Ordering.lt
  | PreId.str _, PreId.num _ => Ordering.gt
  | PreId.str a, PreId.str b => lexList cmpChar a.data b.data

/-- Comparison of prerelease identifier lists: a release (empty list) has
higher precedence than any prerelease; otherwise identifiers compare
pairwise and a strict prefix is smaller. -/
def cmpPre : List PreId → List PreId → Ordering
  | [], [] => Ordering.eq
  | [], _ :: _ => Ordering.gt
  | _ :: _, [] => Ordering.lt
  | a :: as, b :: bs => lexList cmpPreId (a :: as) (b :: bs)

/-- Sequential composition of two comparisons (compare by `f`, break ties
by `g`). -/
def cmpThen (f g : α → α → Ordering) (a b : α) : Ordering :=
  (f a b).then (g a b)

/-- Semver precedence comparison, as implemented by the Python `semver`
package: major, then minor, then patch, then prerelease; build metadata is
ignored. -/
def compareVer : VersionInfo → VersionInfo → Ordering :=
  cmpThen (fun a b => cmpN a.major b.major)
    (cmpThen (fun a b => cmpN a.minor b.minor)
      (cmpThen (fun a b => cmpN a.patch b.patch)
        (fun a b => cmpPre a.prerelease b.prerelease)))

/-- Python's `max` over a nonempty list: fold keeping the current maximum,
replacing it only on a strictly greater element. `none` on the empty list
(where Python raises `ValueError`). -/
def pymax (c : α → α → Ordering) : List α → Option α
  | [] => none
  | a :: l => some (l.foldl (fun acc x => if c acc x = Ordering.lt then x else acc) a)

/-- An identifier character: `[0-9A-Za-z-]`, the alphabet allowed in
prerelease and build identifiers. -/
def isIdentChar (c : Char) : Bool := c.isDigit || c.isAlpha || c = '-'

/-- Split a character list at every occurrence of a separator character
(Python `str.split(sep)` / jq `split` semantics). -/
def splitListOn (sep : Char) : List Char → List (List Char)
  | [] => [[]]
  | c :: rest =>
    if c = sep then [] :: splitListOn sep rest
    else
      match splitListOn sep rest with
      | [] => [[c]]
      | g :: gs => (c :: g) :: gs

/-- Split a string at every occurrence of a separator character. -/
def splitOnChar (sep : Char) (s : String) : List String :=
  (splitListOn sep s.data).map String.mk

/-- Decimal value of a digit list. -/
def digitsToNat (s : List Char) : Nat :=
  s.foldl (fun n c => n * 10 + (c.toNat - 48)) 0

/-- Parse a decimal numeral with no leading zeros (`0|[1-9][0-9]*`), the
form required for major/minor/patch and numeric prerelease identifiers. -/
def parseNumStrict (s : String) : Option Nat :=
  if s.data.isEmpty then none
  else if s.data.all Char.isDigit then
    if 1 < s.data.length && s.data.head? == some '0' then none
    else some (digitsToNat s.data)
  else none

/-- Parse one prerelease identifier
(`0|[1-9][0-9]*|[0-9]*[A-Za-z-][0-9A-Za-z-]*`). -/
def parsePreId (s : String) : Option PreId :=
  if s.data.isEmpty then none
  else if s.data.all Char.isDigit then
    match parseNumStrict s with
    | some n => some (PreId.num n)
    | none => none
  else if s.data.all isIdentChar then some (PreId.str s)
  else none

/-- Parse one build identifier (`[0-9A-Za-z-]+`). -/
def parseBuildId (s : String) : Option String :=
  if s.data.isEmpty then none
  else if s.data.all isIdentChar then some s
  else none

/-- Strict semver parsing, mirroring `semver.VersionInfo.parse`: split off the
build metadata at the first `+`, the prerelease at the first `-`, and require
the core to be exactly three numerals without leading zeros. -/
def parseSemver (s : String) : Option VersionInfo :=
  let pparts := splitOnChar '+' s
  let vp := match pparts with
    | [] => ""
    | v :: _ => v
  let buildPart : Option String := match pparts with
    | [] => none
    | [_] => none
    | _ :: rest => some (String.intercalate "+" rest)
  let cparts := splitOnChar '-' vp
  let core := match cparts with
    | [] => ""
    | c :: _ => c
  let prePart : Option String := match cparts with
    | [] => none
    | [_] => none
    | _ :: rest => some (String.intercalate "-" rest)
  match splitOnChar '.' core with
  | [ma, mi, pa] =>
    match parseNumStrict ma, parseNumStrict mi, parseNumStrict pa with
    | some vmaj, some vmin, some vpat =>
      let preIds : Option (List PreId) := match prePart with
        | none => some []
        | some ps => (splitOnChar '.' ps).mapM parsePreId
      let buildIds : Option (List String) := match buildPart with
        | none => some []
        | some bs => (splitOnChar '.' bs).mapM parseBuildId
      match preIds, buildIds with
      | some pre, some bld => some ⟨vmaj, vmin, vpat, pre, bld⟩
      | _, _ => none
    | _, _, _ => none
  | _ => none

/-- Render one prerelease identifier. -/
def preIdToString : PreId → String
  | PreId.num n => toString n
  | PreId.str s => s

/-- Render a version back to its string form, mirroring
`str(semver.VersionInfo)`. -/
def verToString (v : VersionInfo) : String :=
  toString v.major ++ "." ++ toString v.minor ++ "." ++ toString v.patch
    ++ (if v.prerelease.isEmpty then ""
        else "-" ++ String.intercalate "." (v.prerelease.map preIdToString))
    ++ (if v.build.isEmpty then ""
        else "+" ++ String.intercalate "." v.build)

/-! ## Laws of the comparison functions

The properties of a comparison needed to show that Python's `max` returns a
greatest element: swapping the arguments swaps the result, equal elements are
interchangeable on the left, and strictly-less composes with less-or-equal. -/

/-- The laws a three-way comparison must satisfy for `pymax` to return a
greatest element. -/
structure CmpLaws (c : α → α → Ordering) : Prop where
  swap_eq : ∀ a b, (c a b).swap = c b a
  eq_left : ∀ a b x, c a b = Ordering.eq → c a x = c b x
  lt_le : ∀ a b x, c a b = Ordering.lt → c b x ≠ Ordering.gt → c a x = Ordering.lt

/-! ## Embedding of the script

`update_cdn.py` shells out to `gh`, `git`, one HTTP HEAD request and the
changelog library, and reads two environment values (`REPO`,
`GITHUB_WORKSPACE`) plus the constant `DEFAULT_PLOTLY` and the page-generator
file imported from `py.kaleido._page_generator` (a module outside this
repository fragment; its constant and file content are therefore modelled as
unconstrained inputs).  A `World` fixes the response of the environment to
every call the script can make during one run. -/

/-- The response of `gh issue list --json number,state` for one issue. -/
structure Issue where
  number : Nat
  state : String
deriving DecidableEq, Repr

/-- The environment of one run: every datum the script can observe. -/
structure World where
  /-- `REPO` environment variable. -/
  repo : String
  /-- `DEFAULT_PLOTLY`, the CDN URL constant embedded in the page generator. -/
  default_plotly : String
  /-- Content of the page-generator source file (`FILE_PATH`). -/
  fileContent : String
  /-- Tag names from `gh api repos/plotly/plotly.js/tags --paginate`. -/
  tagsOut : List String
  /-- stderr of the tag-listing call. -/
  tagsErr : String
  /-- Whether the HEAD request on the new CDN URL returns status 200. -/
  urlReachable : Bool
  /-- Exit code of `gh api repos/REPO/branches/BRANCH`. -/
  branchRc : Nat
  /-- stderr of the branch lookup. -/
  branchErr : String
  /-- stdout of `gh pr list -H BRANCH --state all`. -/
  prListOut : String
  /-- Whether `changelogtxt_parser.update` reports success. -/
  changelogOk : Bool
  /-- Exit code of `git push -u origin BRANCH`. -/
  pushRc : Nat
  /-- stderr of the push. -/
  pushErr : String
  /-- stdout of `gh pr create`. -/
  prCreateOut : String
  /-- stderr of `gh pr create`. -/
  prCreateErr : String
  /-- Exit code of `gh pr create`. -/
  prCreateRc : Nat
  /-- Parsed JSON of `gh issue list --search TITLE --state all`. -/
  issueList : List Issue
  /-- stdout of `gh issue create`. -/
  issueCreateOut : String
  /-- stderr of `gh issue create`. -/
  issueCreateErr : String
deriving Repr

/-- One observable external action of the script. -/
inductive Effect where
  | ghApiTags
  | headRequest (url : String)
  | fileWrite (content : String)
  | ghApiBranch (branch : String)
  | ghPrList (branch : String)
  | changelogUpdate (version title : String)
  | gitCheckout (branch : String)
  | gitAdd
  | gitCommit (msg : String)
  | gitPush (branch : String)
  | ghPrCreate (branch title body : String)
  | ghIssueList (title : String)
  | ghIssueCreate (title body : String)
  | printLn (s : String)
  | eprintLn (s : String)
deriving DecidableEq, Repr

/-- How the process ends: an explicit `sys.exit` / end of `main` (exit code),
or an uncaught Python exception. -/
inductive ExitStatus where
  | exit (code : Nat)
  | crash
deriving DecidableEq, Repr

/-- Python's substring test `needle in hay`, on character lists. -/
def containsSubList (needle : List Char) : List Char → Bool
  | [] => needle.isEmpty
  | c :: rest => needle.isPrefixOf (c :: rest) || containsSubList needle rest

/-- Python's substring test `needle in hay`. -/
def containsSub (needle hay : String) : Bool :=
  containsSubList needle.data hay.data

/-- jq's `ltrimstr`: remove the given leading string when present. -/
def ltrimstr (pre s : String) : String :=
  if pre.data.isPrefixOf s.data then String.mk (s.data.drop pre.data.length) else s

/-- A whitespace character as recognised by Python `str.strip`. -/
def isSpaceChar (c : Char) : Bool :=
  c = ' ' || c = '\t' || c = '\n' || c = '\r' || c = '\x0b' || c = '\x0c'

/-- Python's `str.strip()`. -/
def pystrip (s : String) : String :=
  String.mk (((s.data.dropWhile isSpaceChar).reverse.dropWhile isSpaceChar).reverse)

/-- Python's `str.replace(old, new, 1)`: replace the first occurrence of
`old` (working on character lists). -/
def replaceFirstList (old new : List Char) : List Char → List Char
  | [] => if old.isEmpty then new else []
  | c :: rest =>
    if old.isPrefixOf (c :: rest) then new ++ (c :: rest).drop old.length
    else c :: replaceFirstList old new rest

/-- `str.replace(old, new, 1)` on strings. -/
def replaceFirst (s old new : String) : String :=
  ⟨replaceFirstList old.data new.data s.data⟩

/-- The derived branch name `bot/update-cdn-<version>`. -/
def branchName (v : String) : String := "bot/update-cdn-" ++ v

/-- The derived PR title `Update Plotly.js CDN to v<version>`. -/
def prTitle (v : String) : String := "Update Plotly.js CDN to v" ++ v

/-- The derived issue title `CDN not reachable for Plotly.js v<version>`. -/
def issueTitle (v : String) : String := "CDN not reachable for Plotly.js v" ++ v

/-- The CDN URL built from a version. -/
def cdnUrl (v : String) : String := "https://cdn.plot.ly/plotly-" ++ v ++ ".js"

/-- `get_latest_version`: list the upstream tags, strip a leading `v` from
each name, parse all of them as semantic versions (an unparsable tag raises,
i.e. crashes, before stderr is inspected), fail the run when the command
reported anything on stderr, and return the string form of the maximum
(`max` raises on an empty list). -/
def get_latest_version (w : World) : List Effect × Except ExitStatus String :=
  let es := [Effect.ghApiTags]
  match (w.tagsOut.map (ltrimstr "v")).mapM parseSemver with
  | none => (es, Except.error ExitStatus.crash)
  | some versions =>
    if w.tagsErr ≠ "" then
      (es ++ [Effect.printLn w.tagsErr], Except.error (ExitStatus.exit 1))
    else
      match pymax compareVer versions with
      | none => (es, Except.error ExitStatus.crash)
      | some m => (es, Except.ok (verToString m))

/-- `create_pr`: abort (exit 1) when the branch lookup succeeds (branch
exists) or fails without `HTTP 404` in its stderr; abort when `gh pr list`
prints anything; abort when the changelog update fails; then run the git
commands, failing on a nonzero push; create the PR, failing on a nonzero
exit.  Returns `some code` for `sys.exit(code)`, `none` for a normal
return. -/
def create_pr (w : World) (latest_version : String) : List Effect × Option Nat :=
  let branch := branchName latest_version
  let title := prTitle latest_version
  let body := "This PR updates the CDN URL to v" ++ latest_version ++ "."
  let es0 := [Effect.ghApiBranch branch]
  if w.branchRc = 0 then
    (es0 ++ [Effect.eprintLn ("The branch " ++ branch ++ " already exists")], some 1)
  else if containsSub "HTTP 404" w.branchErr = false then
    (es0 ++ [Effect.eprintLn w.branchErr], some 1)
  else
    let es1 := es0 ++ [Effect.ghPrList branch]
    if w.prListOut ≠ "" then
      (es1 ++ [Effect.eprintLn ("Pull request for '" ++ branch ++ "' already exists")], some 1)
    else
      let es2 := es1 ++ [Effect.changelogUpdate latest_version title]
      if w.changelogOk = false then
        (es2 ++ [Effect.eprintLn "Failed to update changelog"], some 1)
      else
        let es3 := es2 ++ [Effect.gitCheckout branch, Effect.gitAdd,
          Effect.gitCommit ("chore: " ++ title), Effect.gitPush branch]
        if w.pushRc ≠ 0 then
          (es3 ++ [Effect.eprintLn w.pushErr], some 1)
        else
          let es4 := es3 ++ [Effect.ghPrCreate branch title body]
          if w.prCreateRc ≠ 0 then
            (es4 ++ [Effect.eprintLn w.prCreateErr], some 1)
          else
            (es4 ++ [Effect.printLn ("Pull request: " ++ pystrip w.prCreateOut)], none)

/-- `verify_issue`: list issues matching the title; when the list is
nonempty, exit 1 printing the link of the first OPEN one, or exit 0 when
none is OPEN; when the list is empty, fall through. -/
def verify_issue (w : World) (title : String) : List Effect × Option Nat :=
  let es0 := [Effect.ghIssueList title]
  if w.issueList.isEmpty then (es0, none)
  else
    match w.issueList.find? (fun i => i.state == "OPEN") with
    | some i =>
      (es0 ++ [Effect.printLn ("Issue '" ++ title ++ "' already exists in:"),
        Effect.printLn ("https://github.com/" ++ w.repo ++ "/issues/" ++ toString i.number)],
       some 1)
    | none => (es0 ++ [Effect.printLn ("Issue '" ++ title ++ "' is closed")], some 0)

/-- `create_issue`: create the issue; populated stderr from the command is
fatal (printed, exit 1). -/
def create_issue (w : World) (title body : String) : List Effect × Option Nat :=
  let es0 := [Effect.ghIssueCreate title body]
  if w.issueCreateErr ≠ "" then
    (es0 ++ [Effect.printLn w.issueCreateErr], some 1)
  else
    (es0 ++ [Effect.printLn ("The issue '" ++ title ++ "' was created in "
      ++ pystrip w.issueCreateOut)], none)

/-- The body of `main` after the latest version has been resolved: build the
CDN URL; stop (exit 0) when it equals `DEFAULT_PLOTLY`; otherwise HEAD the
URL and either rewrite the page-generator file and create the PR, or go
through the issue path. -/
def mainAfter (w : World) (latest_version : String) : List Effect × ExitStatus :=
  let new_cdn := cdnUrl latest_version
  if new_cdn = w.default_plotly then
    ([Effect.printLn "Already up to date"], ExitStatus.exit 0)
  else
    let es0 := [Effect.headRequest new_cdn]
    if w.urlReachable = true then
      let newContent := replaceFirst w.fileContent w.default_plotly new_cdn
      let es1 := es0 ++ [Effect.fileWrite newContent]
      match create_pr w latest_version with
      | (es2, some code) => (es1 ++ es2, ExitStatus.exit code)
      | (es2, none) => (es1 ++ es2, ExitStatus.exit 0)
    else
      let title := issueTitle latest_version
      let body := "URL: " ++ new_cdn ++ " - invalid url"
      match verify_issue w title with
      | (es2, some code) => (es0 ++ es2, ExitStatus.exit code)
      | (es2, none) =>
        match create_issue w title body with
        | (es3, some code) => (es0 ++ es2 ++ es3, ExitStatus.exit code)
        | (es3, none) => (es0 ++ es2 ++ es3, ExitStatus.exit 0)

/-- `main`: resolve the latest version, then run the rest of the workflow;
a normal end of `main` makes the process exit 0.  (Named `main'` because Lean
reserves `main` for program entry points.) -/
def main' (w : World) : List Effect × ExitStatus :=
  match get_latest_version w with
  | (es, Except.error st) => (es, st)
  | (es, Except.ok v) => (es ++ (mainAfter w v).1, (mainAfter w v).2)

/-! ## Classifying effects -/

/-- File-modifying effects: the page-generator rewrite and the changelog
rewrite performed by the changelog library. -/
def Effect.isWrite : Effect → Bool
  | Effect.fileWrite _ => true
  | Effect.changelogUpdate _ _ => true
  | _ => false

/-- The page-generator file rewrite. -/
def Effect.isFileWrite : Effect → Bool
  | Effect.fileWrite _ => true
  | _ => false

/-- Any `git` command. -/
def Effect.isGit : Effect → Bool
  | Effect.gitCheckout _ => true
  | Effect.gitAdd => true
  | Effect.gitCommit _ => true
  | Effect.gitPush _ => true
  | _ => false

/-- Any pull-request operation (listing or creating). -/
def Effect.isPrOp : Effect → Bool
  | Effect.ghPrList _ => true
  | Effect.ghPrCreate _ _ _ => true
  | _ => false

/-- The PR-creation call. -/
def Effect.isPrCreate : Effect → Bool
  | Effect.ghPrCreate _ _ _ => true
  | _ => false

/-- Any issue operation (listing or creating). -/
def Effect.isIssueOp : Effect → Bool
  | Effect.ghIssueList _ => true
  | Effect.ghIssueCreate _ _ => true
  | _ => false

/-- The issue-creation call. -/
def Effect.isIssueCreate : Effect → Bool
  | Effect.ghIssueCreate _ _ => true
  | _ => false

/-- Concrete instance of claim C1: the tag list
`["v1.2.0", "v1.10.0", "v1.9.9"]` resolves to `"1.10.0"`. -/
def tagWorld : World :=
  ⟨"davidangarita1/Kaleido", "https://cdn.plot.ly/plotly-1.2.0.js",
   "DEFAULT_PLOTLY = https://cdn.plot.ly/plotly-1.2.0.js",
   ["v1.2.0", "v1.10.0", "v1.9.9"], "", true, 1, "gh: Not Found (HTTP 404)",
   "", true, 0, "", "", "", 0, [], "", ""⟩

/-- A run environment on the happy path: one new tag `v1.10.0`, an embedded
constant for 1.2.0, reachable CDN, no duplicate branch/PR/issue, all
commands succeeding. -/
def baseWorld : World :=
  ⟨"davidangarita1/Kaleido", "https://cdn.plot.ly/plotly-1.2.0.js",
   "DEFAULT_PLOTLY = https://cdn.plot.ly/plotly-1.2.0.js",
   ["v1.10.0"], "", true, 1, "gh: Not Found (HTTP 404)",
   "", true, 0, "", "https://github.com/davidangarita1/Kaleido/pull/7", "", 0,
   [], "https://github.com/davidangarita1/Kaleido/issues/9", ""⟩

/-- The environment of claim C2's witness: the latest tag is already the
embedded one. -/
def upToDateWorld : World :=
  { baseWorld with default_plotly := "https://cdn.plot.ly/plotly-1.10.0.js" }

/-- The environment of claim C3's counterexample: like the fresh happy path,
but the changelog update fails. -/
def changelogFailWorld : World := { baseWorld with changelogOk := false }

/-- The environment of claim C4's witness: the branch already exists. -/
def dupBranchWorld : World := { baseWorld with branchRc := 0 }

/-- The environment of claim C6's witness: unreachable URL, matching issue
open. -/
def openIssueWorld : World :=
  { baseWorld with urlReachable := false, issueList := [⟨5, "OPEN"⟩] }

/-- The environment of claim C7's witness: unreachable URL, matching issue
closed. -/
def closedIssueWorld : World :=
  { baseWorld with urlReachable := false, issueList := [⟨5, "CLOSED"⟩] }

/-- The environment of claim C8's witness: unreachable URL, no matching
issue. -/
def noIssueWorld : World := { baseWorld with urlReachable := false }

/-- The version string the run resolves, when resolution succeeds. -/
def resolvedVersion (w : World) : Option String :=
  match (get_latest_version w).2 with
  | Except.ok v => some v
  | Except.error _ => none

/-- The shelled-out commands whose failure signals the script actually
inspects: the tag-listing stderr, the branch lookup (nonzero exit with stderr
not containing `HTTP 404`), the git push exit code, the PR-creation exit
code, and the issue-creation stderr. -/
inductive CheckedCmd where
  | apiTags
  | apiBranch
  | gitPush
  | prCreate
  | issueCreate
deriving DecidableEq, Repr

/-- The run reaches the point where the given command's failure signal is
inspected. -/
def reaches : CheckedCmd → World → Bool
  | CheckedCmd.apiTags, w => ((w.tagsOut.map (ltrimstr "v")).mapM parseSemver).isSome
  | CheckedCmd.apiBranch, w =>
    match resolvedVersion w with
    | none => false
    | some v => (cdnUrl v != w.default_plotly) && w.urlReachable
  | CheckedCmd.gitPush, w =>
    match resolvedVersion w with
    | none => false
    | some v => (cdnUrl v != w.default_plotly) && w.urlReachable
        && (w.branchRc != 0) && containsSub "HTTP 404" w.branchErr
        && (w.prListOut == "") && w.changelogOk
  | CheckedCmd.prCreate, w =>
    match resolvedVersion w with
    | none => false
    | some v => (cdnUrl v != w.default_plotly) && w.urlReachable
        && (w.branchRc != 0) && containsSub "HTTP 404" w.branchErr
        && (w.prListOut == "") && w.changelogOk && (w.pushRc == 0)
  | CheckedCmd.issueCreate, w =>
    match resolvedVersion w with
    | none => false
    | some v => (cdnUrl v != w.default_plotly) && !w.urlReachable
        && w.issueList.isEmpty

/-- The failure signal the script inspects for the given command. -/
def failSignal : CheckedCmd → World → Bool
  | CheckedCmd.apiTags, w => w.tagsErr != ""
  | CheckedCmd.apiBranch, w =>
    (w.branchRc != 0) && !containsSub "HTTP 404" w.branchErr
  | CheckedCmd.gitPush, w => w.pushRc != 0
  | CheckedCmd.prCreate, w => w.prCreateRc != 0
  | CheckedCmd.issueCreate, w => w.issueCreateErr != ""

/-- The error text the script prints for the given command's failure, on the
stream the script uses there. -/
def failPrintEffect : CheckedCmd → World → Effect
  | CheckedCmd.apiTags, w => Effect.printLn w.tagsErr
  | CheckedCmd.apiBranch, w => Effect.eprintLn w.branchErr
  | CheckedCmd.gitPush, w => Effect.eprintLn w.pushErr
  | CheckedCmd.prCreate, w => Effect.eprintLn w.prCreateErr
  | CheckedCmd.issueCreate, w => Effect.printLn w.issueCreateErr

/-- The environment of claim C5's witness: the push fails. -/
def pushFailWorld : World :=
  { baseWorld with pushRc := 1, pushErr := "remote: permission denied" }

theorem cmpN_eq_lt {a b : Nat} : cmpN a b = Ordering.lt ↔ a < b := by
  unfold cmpN; split_ifs <;> simp_all

theorem cmpN_eq_gt {a b : Nat} : cmpN a b = Ordering.gt ↔ b < a := by
  unfold cmpN; split_ifs <;> simp_all; omega

theorem cmpN_eq_eq {a b : Nat} : cmpN a b = Ordering.eq ↔ a = b := by
  unfold cmpN; split_ifs <;> simp_all <;> omega

theorem ordering_then_eq_lt {o p : Ordering} :
    o.then p = Ordering.lt ↔ o = Ordering.lt ∨ (o = Ordering.eq ∧ p = Ordering.lt) := by
  cases o <;> simp [Ordering.then]

theorem ordering_then_eq_eq {o p : Ordering} :
    o.then p = Ordering.eq ↔ o = Ordering.eq ∧ p = Ordering.eq := by
  cases o <;> simp [Ordering.then]

theorem ordering_then_ne_gt {o p : Ordering} :
    o.then p ≠ Ordering.gt ↔ o = Ordering.lt ∨ (o = Ordering.eq ∧ p ≠ Ordering.gt) := by
  cases o <;> simp [Ordering.then]

theorem ordering_swap_then (o p : Ordering) :
    (o.then p).swap = o.swap.then p.swap := by
  cases o <;> cases p <;> rfl

theorem cmpN_laws : CmpLaws cmpN := by
  refine ⟨fun a b => ?_, fun a b x h => ?_, fun a b x h1 h2 => ?_⟩
  · unfold cmpN
    rcases Nat.lt_trichotomy a b with h | h | h
    · simp [h, Nat.lt_asymm h, Ordering.swap]
    · simp [h, Ordering.swap]
    · simp [h, Nat.lt_asymm h, Ordering.swap]
  · rw [cmpN_eq_eq] at h; rw [h]
  · rw [cmpN_eq_lt] at h1 ⊢
    have hxb : ¬ x < b := fun hh => h2 (cmpN_eq_gt.mpr hh)
    omega

theorem CmpLaws.refl_eq {c : α → α → Ordering} (hc : CmpLaws c) (a : α) :
    c a a = Ordering.eq := by
  have h := hc.swap_eq a a
  cases hh : c a a <;> rw [hh] at h <;> simp [Ordering.swap] at h

theorem CmpLaws.eq_right {c : α → α → Ordering} (hc : CmpLaws c) {a b : α}
    (h : c a b = Ordering.eq) (x : α) : c x a = c x b := by
  have h1 := hc.swap_eq a x
  have h2 := hc.swap_eq b x
  rw [← h1, ← h2, hc.eq_left a b x h]

theorem CmpLaws.le_lt {c : α → α → Ordering} (hc : CmpLaws c) {a b x : α}
    (h1 : c a b ≠ Ordering.gt) (h2 : c b x = Ordering.lt) : c a x = Ordering.lt := by
  cases hh : c a b with
  | lt => exact hc.lt_le a b x hh (by rw [h2]; simp)
  | eq => rw [hc.eq_left a b x hh, h2]
  | gt => exact absurd hh h1

theorem CmpLaws.le_trans {c : α → α → Ordering} (hc : CmpLaws c) {a b x : α}
    (h1 : c a b ≠ Ordering.gt) (h2 : c b x ≠ Ordering.gt) : c a x ≠ Ordering.gt := by
  cases hh : c a b with
  | lt =>
    cases hx : c b x with
    | lt => rw [hc.lt_le a b x hh (by rw [hx]; simp)]; simp
    | eq => rw [← hc.eq_right hx a, hh]; simp
    | gt => exact absurd hx h2
  | eq => rw [hc.eq_left a b x hh]; exact h2
  | gt => exact absurd hh h1

theorem CmpLaws.comap {c : β → β → Ordering} (hc : CmpLaws c) (f : α → β) :
    CmpLaws (fun a b => c (f a) (f b)) :=
  ⟨fun a b => hc.swap_eq (f a) (f b),
   fun a b x h => hc.eq_left (f a) (f b) (f x) h,
   fun a b x h1 h2 => hc.lt_le (f a) (f b) (f x) h1 h2⟩

theorem lexList_swap {c : α → α → Ordering} (hc : CmpLaws c) (a : List α) :
    ∀ b, (lexList c a b).swap = lexList c b a := by
  induction a with
  | nil => intro b; cases b <;> rfl
  | cons x xs ih =>
    intro b
    cases b with
    | nil => rfl
    | cons y ys =>
      simp only [lexList]
      rw [ordering_swap_then, hc.swap_eq, ih ys]

theorem lexList_eq_left {c : α → α → Ordering} (hc : CmpLaws c) (a : List α) :
    ∀ b x, lexList c a b = Ordering.eq → lexList c a x = lexList c b x := by
  induction a with
  | nil =>
    intro b x h
    cases b with
    | nil => rfl
    | cons y ys => simp [lexList] at h
  | cons z zs ih =>
    intro b x h
    cases b with
    | nil => simp [lexList] at h
    | cons y ys =>
      simp only [lexList] at h
      rw [ordering_then_eq_eq] at h
      cases x with
      | nil => rfl
      | cons t ts =>
        simp only [lexList]
        rw [hc.eq_left z y t h.1, ih ys ts h.2]

theorem lexList_lt_le {c : α → α → Ordering} (hc : CmpLaws c) (a : List α) :
    ∀ b x, lexList c a b = Ordering.lt → lexList c b x ≠ Ordering.gt →
      lexList c a x = Ordering.lt := by
  induction a with
  | nil =>
    intro b x h1 h2
    cases b with
    | nil => simp [lexList] at h1
    | cons y ys =>
      cases x with
      | nil => simp [lexList] at h2
      | cons t ts => simp [lexList]
  | cons z zs ih =>
    intro b x h1 h2
    cases b with
    | nil => simp [lexList] at h1
    | cons y ys =>
      cases x with
      | nil => simp [lexList] at h2
      | cons t ts =>
        simp only [lexList] at h1 h2 ⊢
        rw [ordering_then_eq_lt] at h1 ⊢
        rw [ordering_then_ne_gt] at h2
        rcases h1 with h1 | ⟨h1e, h1t⟩
        · rcases h2 with h2 | ⟨h2e, _⟩
          · exact Or.inl (hc.lt_le z y t h1 (by rw [h2]; simp))
          · exact Or.inl (by rw [← hc.eq_right h2e z]; exact h1)
        · rcases h2 with h2 | ⟨h2e, h2t⟩
          · exact Or.inl (by rw [hc.eq_left z y t h1e]; exact h2)
          · refine Or.inr ⟨?_, ih ys ts h1t h2t⟩
            rw [hc.eq_left z y t h1e]
            exact h2e

theorem lexList_laws {c : α → α → Ordering} (hc : CmpLaws c) :
    CmpLaws (lexList c) :=
  ⟨fun a b => lexList_swap hc a b,
   fun a b x h => lexList_eq_left hc a b x h,
   fun a b x h1 h2 => lexList_lt_le hc a b x h1 h2⟩

theorem cmpThen_laws {f g : α → α → Ordering} (hf : CmpLaws f) (hg : CmpLaws g) :
    CmpLaws (cmpThen f g) := by
  refine ⟨fun a b => ?_, fun a b x h => ?_, fun a b x h1 h2 => ?_⟩
  · unfold cmpThen
    rw [ordering_swap_then, hf.swap_eq, hg.swap_eq]
  · unfold cmpThen at h ⊢
    rw [ordering_then_eq_eq] at h
    rw [hf.eq_left a b x h.1, hg.eq_left a b x h.2]
  · unfold cmpThen at h1 h2 ⊢
    rw [ordering_then_eq_lt] at h1 ⊢
    rw [ordering_then_ne_gt] at h2
    rcases h1 with h1 | ⟨h1e, h1t⟩
    · rcases h2 with h2 | ⟨h2e, _⟩
      · exact Or.inl (hf.lt_le a b x h1 (by rw [h2]; simp))
      · exact Or.inl (by rw [← hf.eq_right h2e a]; exact h1)
    · rcases h2 with h2 | ⟨h2e, h2t⟩
      · exact Or.inl (by rw [hf.eq_left a b x h1e]; exact h2)
      · exact Or.inr ⟨by rw [hf.eq_left a b x h1e, h2e], hg.lt_le a b x h1t h2t⟩

theorem cmpChar_laws : CmpLaws cmpChar := cmpN_laws.comap Char.toNat

theorem cmpPreId_laws : CmpLaws cmpPreId := by
  refine ⟨fun a b => ?_, fun a b x h => ?_, fun a b x h1 h2 => ?_⟩
  · cases a <;> cases b <;> simp only [cmpPreId]
    · exact cmpN_laws.swap_eq _ _
    · rfl
    · rfl
    · exact (lexList_laws cmpChar_laws).swap_eq _ _
  · cases a <;> cases b <;> simp only [cmpPreId] at h
    case num.num m n =>
      rw [cmpN_eq_eq] at h
      subst h; rfl
    case num.str => simp at h
    case str.num => simp at h
    case str.str s t =>
      cases x <;> simp only [cmpPreId]
      exact (lexList_laws cmpChar_laws).eq_left _ _ _ h
  · cases a <;> cases b <;> simp only [cmpPreId] at h1
    case num.num m n =>
      cases x <;> simp only [cmpPreId] at h2 ⊢
      exact cmpN_laws.lt_le m n _ h1 h2
    case num.str m s =>
      cases x <;> simp only [cmpPreId] at h2 ⊢
      simp at h2
    case str.num => simp at h1
    case str.str s t =>
      cases x <;> simp only [cmpPreId] at h2 ⊢
      · simp at h2
      · exact (lexList_laws cmpChar_laws).lt_le _ _ _ h1 h2

theorem cmpPre_laws : CmpLaws cmpPre := by
  refine ⟨fun a b => ?_, fun a b x h => ?_, fun a b x h1 h2 => ?_⟩
  · cases a <;> cases b <;> simp only [cmpPre]
    · rfl
    · rfl
    · rfl
    · exact (lexList_laws cmpPreId_laws).swap_eq _ _
  · cases a with
    | nil =>
      cases b with
      | nil => rfl
      | cons y ys => simp [cmpPre] at h
    | cons z zs =>
      cases b with
      | nil => simp [cmpPre] at h
      | cons y ys =>
        simp only [cmpPre] at h
        cases x with
        | nil => rfl
        | cons t ts =>
          simp only [cmpPre]
          exact (lexList_laws cmpPreId_laws).eq_left _ _ _ h
  · cases a with
    | nil =>
      cases b with
      | nil => simp [cmpPre] at h1
      | cons y ys => simp [cmpPre] at h1
    | cons z zs =>
      cases b with
      | nil =>
        cases x with
        | nil => simp only [cmpPre]
        | cons t ts => simp [cmpPre] at h2
      | cons y ys =>
        simp only [cmpPre] at h1
        cases x with
        | nil => simp only [cmpPre]
        | cons t ts =>
          simp only [cmpPre] at h2 ⊢
          exact (lexList_laws cmpPreId_laws).lt_le _ _ _ h1 h2

theorem compareVer_laws : CmpLaws compareVer := by
  unfold compareVer
  exact cmpThen_laws (cmpN_laws.comap VersionInfo.major)
    (cmpThen_laws (cmpN_laws.comap VersionInfo.minor)
      (cmpThen_laws (cmpN_laws.comap VersionInfo.patch)
        (cmpPre_laws.comap VersionInfo.prerelease)))

/-- The fold inside `pymax` stays in the list (or at the start element) and
dominates the start element and every element of the list. -/
theorem pymax_fold_spec {c : α → α → Ordering} (hc : CmpLaws c) (l : List α) :
    ∀ a, (l.foldl (fun acc x => if c acc x = Ordering.lt then x else acc) a = a ∨
          l.foldl (fun acc x => if c acc x = Ordering.lt then x else acc) a ∈ l) ∧
      c a (l.foldl (fun acc x => if c acc x = Ordering.lt then x else acc) a) ≠ Ordering.gt ∧
      ∀ x ∈ l, c x (l.foldl (fun acc x => if c acc x = Ordering.lt then x else acc) a) ≠ Ordering.gt := by
  induction l with
  | nil =>
    intro a
    refine ⟨Or.inl rfl, ?_, by simp⟩
    simp only [List.foldl_nil]
    rw [hc.refl_eq a]; simp
  | cons b bs ih =>
    intro a
    simp only [List.foldl_cons]
    rcases ih (if c a b = Ordering.lt then b else a) with ⟨hmem, hstart, hall⟩
    by_cases hab : c a b = Ordering.lt
    · rw [if_pos hab] at hmem hstart hall ⊢
      refine ⟨?_, ?_, ?_⟩
      · rcases hmem with hmem | hmem
        · exact Or.inr (by rw [hmem]; exact List.mem_cons_self b bs)
        · exact Or.inr (List.mem_cons_of_mem b hmem)
      · rw [hc.lt_le a b _ hab hstart]; simp
      · intro x hx
        rcases List.mem_cons.mp hx with rfl | hx
        · exact hstart
        · exact hall x hx
    · rw [if_neg hab] at hmem hstart hall ⊢
      refine ⟨?_, hstart, ?_⟩
      · rcases hmem with hmem | hmem
        · exact Or.inl hmem
        · exact Or.inr (List.mem_cons_of_mem b hmem)
      · intro x hx
        rcases List.mem_cons.mp hx with rfl | hx
        · have hba : c x a ≠ Ordering.gt := by
            rw [← hc.swap_eq a x]
            cases hh : c a x <;> simp [Ordering.swap]
            exact absurd hh hab
          exact hc.le_trans hba hstart
        · exact hall x hx

/-- `pymax` on a nonempty list returns an element of the list that every
element of the list is less than or equal to, under the comparison. -/
theorem pymax_greatest {c : α → α → Ordering} (hc : CmpLaws c) (l : List α)
    (hne : l ≠ []) :
    ∃ m, pymax c l = some m ∧ m ∈ l ∧ ∀ x ∈ l, c x m ≠ Ordering.gt := by
  cases l with
  | nil => exact absurd rfl hne
  | cons a as =>
    rcases pymax_fold_spec hc as a with ⟨hmem, hstart, hall⟩
    refine ⟨_, rfl, ?_, ?_⟩
    · rcases hmem with hmem | hmem
      · rw [hmem]; exact List.mem_cons_self a as
      · exact List.mem_cons_of_mem a hmem
    · intro x hx
      rcases List.mem_cons.mp hx with rfl | hx
      · exact hstart
      · exact hall x hx

/-! ## Helper lemmas about the run -/

/-- When `get_latest_version` returns a version, its trace is exactly the
tag-listing call. -/
theorem get_latest_version_ok {w : World} {v : String}
    (h : (get_latest_version w).2 = Except.ok v) :
    get_latest_version w = ([Effect.ghApiTags], Except.ok v) := by
  revert h
  unfold get_latest_version
  cases (w.tagsOut.map (ltrimstr "v")).mapM parseSemver with
  | none => simp
  | some versions =>
    by_cases he : w.tagsErr = ""
    · simp only [he]
      cases pymax compareVer versions with
      | none => simp
      | some m => simp
    · simp [he]

/-- Unfolding of a run once the latest version is resolved. -/
theorem main_resolved {w : World} {v : String}
    (hres : get_latest_version w = ([Effect.ghApiTags], Except.ok v)) :
    main' w = (Effect.ghApiTags :: (mainAfter w v).1, (mainAfter w v).2) := by
  unfold main'
  rw [hres]
  rfl

/-! ## Claims -/

/-- Claim C1: for every fetched tag list whose entries (after stripping a
leading `v`) are valid semantic versions (and, as `max` requires, nonempty),
when the tag-listing command reports nothing on stderr, `get_latest_version`
returns the string form of a maximum of the parsed versions under standard
semantic-version precedence ordering. -/
theorem get_latest_version_returns_max (w : World) (vs : List VersionInfo)
    (hparse : (w.tagsOut.map (ltrimstr "v")).mapM parseSemver = some vs)
    (hne : vs ≠ [])
    (herr : w.tagsErr = "") :
    ∃ m, m ∈ vs ∧ (∀ x ∈ vs, compareVer x m ≠ Ordering.gt) ∧
      get_latest_version w = ([Effect.ghApiTags], Except.ok (verToString m)) := by
  rcases pymax_greatest compareVer_laws vs hne with ⟨m, hp, hmem, hall⟩
  refine ⟨m, hmem, hall, ?_⟩
  unfold get_latest_version
  rw [hparse]
  simp [herr, hp]

theorem get_latest_version_returns_max_witness :
    ∃ m, m ∈ [(⟨1, 2, 0, [], []⟩ : VersionInfo), ⟨1, 10, 0, [], []⟩, ⟨1, 9, 9, [], []⟩] ∧
      (∀ x ∈ [(⟨1, 2, 0, [], []⟩ : VersionInfo), ⟨1, 10, 0, [], []⟩, ⟨1, 9, 9, [], []⟩],
        compareVer x m ≠ Ordering.gt) ∧
      get_latest_version tagWorld = ([Effect.ghApiTags], Except.ok (verToString m)) :=
  get_latest_version_returns_max tagWorld
    [⟨1, 2, 0, [], []⟩, ⟨1, 10, 0, [], []⟩, ⟨1, 9, 9, [], []⟩]
    (by decide) (by decide) rfl

/-- Shape of `mainAfter` when the URL differs and is reachable. -/
theorem mainAfter_reachable {w : World} {v : String}
    (hne : cdnUrl v ≠ w.default_plotly) (hr : w.urlReachable = true) :
    mainAfter w v = (Effect.headRequest (cdnUrl v) ::
        Effect.fileWrite (replaceFirst w.fileContent w.default_plotly (cdnUrl v)) ::
        (create_pr w v).1,
      ExitStatus.exit ((create_pr w v).2.getD 0)) := by
  simp only [mainAfter]
  rw [if_neg hne, hr]
  rcases hc : create_pr w v with ⟨es2, oc⟩
  cases oc <;> simp

/-- Shape of `create_pr` when the branch lookup reports exit code 0. -/
theorem create_pr_branch_exists {w : World} {v : String} (h : w.branchRc = 0) :
    create_pr w v = ([Effect.ghApiBranch (branchName v),
      Effect.eprintLn ("The branch " ++ branchName v ++ " already exists")], some 1) := by
  simp [create_pr, h]

/-- Shape of `create_pr` when the branch lookup fails without `HTTP 404`. -/
theorem create_pr_unexpected_err {w : World} {v : String} (h : w.branchRc ≠ 0)
    (h404 : containsSub "HTTP 404" w.branchErr = false) :
    create_pr w v = ([Effect.ghApiBranch (branchName v),
      Effect.eprintLn w.branchErr], some 1) := by
  simp [create_pr, h, h404]

/-- Shape of `create_pr` when a PR for the branch is already listed. -/
theorem create_pr_pr_exists {w : World} {v : String} (h : w.branchRc ≠ 0)
    (h404 : containsSub "HTTP 404" w.branchErr = true) (hpr : w.prListOut ≠ "") :
    create_pr w v = ([Effect.ghApiBranch (branchName v), Effect.ghPrList (branchName v),
      Effect.eprintLn ("Pull request for '" ++ branchName v ++ "' already exists")], some 1) := by
  simp [create_pr, h, h404, hpr]

/-- Shape of `create_pr` when no duplicate exists and the changelog update
fails. -/
theorem create_pr_changelog_fails {w : World} {v : String} (h : w.branchRc ≠ 0)
    (h404 : containsSub "HTTP 404" w.branchErr = true) (hpr : w.prListOut = "")
    (hlog : w.changelogOk = false) :
    create_pr w v = ([Effect.ghApiBranch (branchName v), Effect.ghPrList (branchName v),
      Effect.changelogUpdate v (prTitle v),
      Effect.eprintLn "Failed to update changelog"], some 1) := by
  simp [create_pr, h, h404, hpr, hlog]

/-- Shape of `create_pr` when no duplicate exists, the changelog updates, and
the push fails. -/
theorem create_pr_push_fails {w : World} {v : String} (h : w.branchRc ≠ 0)
    (h404 : containsSub "HTTP 404" w.branchErr = true) (hpr : w.prListOut = "")
    (hlog : w.changelogOk = true) (hpush : w.pushRc ≠ 0) :
    create_pr w v = ([Effect.ghApiBranch (branchName v), Effect.ghPrList (branchName v),
      Effect.changelogUpdate v (prTitle v), Effect.gitCheckout (branchName v),
      Effect.gitAdd, Effect.gitCommit ("chore: " ++ prTitle v),
      Effect.gitPush (branchName v), Effect.eprintLn w.pushErr], some 1) := by
  simp [create_pr, h, h404, hpr, hlog, hpush]

/-- Shape of `create_pr` on the full fresh path (duplicates absent, changelog
and push succeed). -/
theorem create_pr_fresh {w : World} {v : String} (h : w.branchRc ≠ 0)
    (h404 : containsSub "HTTP 404" w.branchErr = true) (hpr : w.prListOut = "")
    (hlog : w.changelogOk = true) (hpush : w.pushRc = 0) :
    create_pr w v = ([Effect.ghApiBranch (branchName v), Effect.ghPrList (branchName v),
      Effect.changelogUpdate v (prTitle v), Effect.gitCheckout (branchName v),
      Effect.gitAdd, Effect.gitCommit ("chore: " ++ prTitle v),
      Effect.gitPush (branchName v),
      Effect.ghPrCreate (branchName v) (prTitle v)
        ("This PR updates the CDN URL to v" ++ v ++ ".")]
      ++ (if w.prCreateRc ≠ 0 then [Effect.eprintLn w.prCreateErr]
          else [Effect.printLn ("Pull request: " ++ pystrip w.prCreateOut)]),
      if w.prCreateRc ≠ 0 then some 1 else none) := by
  simp only [create_pr, h, h404, hpr, hlog, hpush]
  split_ifs with h1 h2 h3 <;> simp_all

/-- Shape of `verify_issue` when some listed issue is OPEN: the first OPEN
issue's link is printed and the run exits 1. -/
theorem verify_issue_open {w : World} {t : String} (i : Issue)
    (hi : i ∈ w.issueList) (hopen : i.state = "OPEN") :
    ∃ j, j ∈ w.issueList ∧ j.state = "OPEN" ∧
      verify_issue w t = ([Effect.ghIssueList t,
        Effect.printLn ("Issue '" ++ t ++ "' already exists in:"),
        Effect.printLn ("https://github.com/" ++ w.repo ++ "/issues/" ++ toString j.number)],
       some 1) := by
  have hsome : (w.issueList.find? (fun i => i.state == "OPEN")).isSome :=
    List.find?_isSome.mpr ⟨i, hi, by simp [hopen]⟩
  rcases Option.isSome_iff_exists.mp hsome with ⟨j, hj⟩
  refine ⟨j, List.mem_of_find?_eq_some hj, by simpa using List.find?_some hj, ?_⟩
  have hne : ¬ w.issueList.isEmpty := by
    simp [List.isEmpty_iff]
    exact List.ne_nil_of_mem hi
  simp [verify_issue, hne, hj]

/-- Shape of `verify_issue` when issues are listed but none is OPEN. -/
theorem verify_issue_closed {w : World} {t : String} (hne : w.issueList ≠ [])
    (hcl : ∀ i ∈ w.issueList, i.state ≠ "OPEN") :
    verify_issue w t = ([Effect.ghIssueList t,
      Effect.printLn ("Issue '" ++ t ++ "' is closed")], some 0) := by
  have hnone : w.issueList.find? (fun i => i.state == "OPEN") = none :=
    List.find?_eq_none.mpr (fun x hx => by simp [hcl x hx])
  have hne' : ¬ w.issueList.isEmpty := by simpa [List.isEmpty_iff] using hne
  simp [verify_issue, hne', hnone]

/-- Shape of `verify_issue` when no issue matches: fall through. -/
theorem verify_issue_empty {w : World} {t : String} (h : w.issueList = []) :
    verify_issue w t = ([Effect.ghIssueList t], none) := by
  simp [verify_issue, h]

/-- Shape of `mainAfter` on the unreachable path, as a function of
`verify_issue` and `create_issue`. -/
theorem mainAfter_unreachable_open {w : World} {v : String}
    (hne : cdnUrl v ≠ w.default_plotly) (hr : w.urlReachable = false)
    {es2 : List Effect} {code : Nat}
    (hv : verify_issue w (issueTitle v) = (es2, some code)) :
    mainAfter w v = (Effect.headRequest (cdnUrl v) :: es2, ExitStatus.exit code) := by
  simp only [mainAfter]
  rw [if_neg hne, hr]
  simp [hv]

/-- Shape of `mainAfter` on the unreachable path when `verify_issue` falls
through and `create_issue` runs. -/
theorem mainAfter_unreachable_create {w : World} {v : String}
    (hne : cdnUrl v ≠ w.default_plotly) (hr : w.urlReachable = false)
    (hempty : w.issueList = []) :
    mainAfter w v = (Effect.headRequest (cdnUrl v) :: Effect.ghIssueList (issueTitle v) ::
        (create_issue w (issueTitle v) ("URL: " ++ cdnUrl v ++ " - invalid url")).1,
      ExitStatus.exit
        ((create_issue w (issueTitle v) ("URL: " ++ cdnUrl v ++ " - invalid url")).2.getD 0)) := by
  simp only [mainAfter]
  rw [if_neg hne, hr]
  rw [verify_issue_empty hempty]
  rcases hc : create_issue w (issueTitle v) ("URL: " ++ cdnUrl v ++ " - invalid url") with ⟨es3, oc⟩
  cases oc <;> simp

/-- Claim C2: when the CDN URL built from the resolved latest version equals
the embedded constant `DEFAULT_PLOTLY`, the run performs no file writes and
no git, PR, or issue operations, and exits with code 0. -/
theorem up_to_date_run_is_noop (w : World) (v : String)
    (hres : get_latest_version w = ([Effect.ghApiTags], Except.ok v))
    (heq : cdnUrl v = w.default_plotly) :
    ∃ tr, main' w = (tr, ExitStatus.exit 0) ∧
      ∀ e ∈ tr, e.isWrite = false ∧ e.isGit = false ∧ e.isPrOp = false ∧
        e.isIssueOp = false := by
  refine ⟨[Effect.ghApiTags, Effect.printLn "Already up to date"], ?_, ?_⟩
  · rw [main_resolved hres]
    simp [mainAfter, heq]
  · intro e he
    simp only [List.mem_cons, List.not_mem_nil, or_false] at he
    rcases he with rfl | rfl <;> exact ⟨rfl, rfl, rfl, rfl⟩

theorem up_to_date_run_is_noop_witness :
    ∃ tr, main' upToDateWorld = (tr, ExitStatus.exit 0) ∧
      ∀ e ∈ tr, e.isWrite = false ∧ e.isGit = false ∧ e.isPrOp = false ∧
        e.isIssueOp = false :=
  up_to_date_run_is_noop upToDateWorld "1.10.0" rfl rfl

/-- Claim C3 (amended): when the new CDN URL is reachable, no branch or PR
named after the new version exists (branch lookup fails with `HTTP 404`, PR
list is empty), and additionally the changelog update and the git push
succeed, then the branch `bot/update-cdn-<version>` is created, exactly one
edit of the page-generator file occurs (a single first-occurrence replacement
of the old URL by the new one), and exactly one PR-creation call is made. -/
theorem fresh_update_creates_branch_and_pr (w : World) (v : String)
    (hres : get_latest_version w = ([Effect.ghApiTags], Except.ok v))
    (hne : cdnUrl v ≠ w.default_plotly)
    (hreach : w.urlReachable = true)
    (hbrc : w.branchRc ≠ 0)
    (h404 : containsSub "HTTP 404" w.branchErr = true)
    (hpr : w.prListOut = "")
    (hlog : w.changelogOk = true)
    (hpush : w.pushRc = 0) :
    ∃ tr st, main' w = (tr, st) ∧
      Effect.gitCheckout (branchName v) ∈ tr ∧
      List.countP (fun e => e.isFileWrite) tr = 1 ∧
      Effect.fileWrite (replaceFirst w.fileContent w.default_plotly (cdnUrl v)) ∈ tr ∧
      List.countP (fun e => e.isPrCreate) tr = 1 := by
  rw [main_resolved hres, mainAfter_reachable hne hreach,
    create_pr_fresh hbrc h404 hpr hlog hpush]
  refine ⟨_, _, rfl, ?_, ?_, ?_, ?_⟩ <;>
    by_cases hprc : w.prCreateRc = 0 <;>
      simp [hprc, Effect.isFileWrite, Effect.isPrCreate, List.countP_cons]

/-- Claim C3 witness: the happy-path environment. -/
theorem fresh_update_creates_branch_and_pr_witness :
    ∃ tr st, main' baseWorld = (tr, st) ∧
      Effect.gitCheckout (branchName "1.10.0") ∈ tr ∧
      List.countP (fun e => e.isFileWrite) tr = 1 ∧
      Effect.fileWrite (replaceFirst baseWorld.fileContent baseWorld.default_plotly
        (cdnUrl "1.10.0")) ∈ tr ∧
      List.countP (fun e => e.isPrCreate) tr = 1 :=
  fresh_update_creates_branch_and_pr baseWorld "1.10.0" rfl (by decide) rfl
    (by decide) (by decide) rfl rfl rfl

/-- Claim C3 counterexample: a run in which the new CDN URL is reachable and
no branch or PR for the version exists, yet no branch is created and no
PR-creation call is made, because the changelog update failed; the claim as
stated is therefore false. -/
theorem fresh_update_cex :
    (get_latest_version changelogFailWorld).2 = Except.ok "1.10.0" ∧
    cdnUrl "1.10.0" ≠ changelogFailWorld.default_plotly ∧
    changelogFailWorld.urlReachable = true ∧
    changelogFailWorld.branchRc ≠ 0 ∧
    containsSub "HTTP 404" changelogFailWorld.branchErr = true ∧
    changelogFailWorld.prListOut = "" ∧
    Effect.gitCheckout (branchName "1.10.0") ∉ (main' changelogFailWorld).1 ∧
    List.countP (fun e => e.isPrCreate) (main' changelogFailWorld).1 = 0 ∧
    (main' changelogFailWorld).2 = ExitStatus.exit 1 := by
  refine ⟨rfl, by decide, rfl, by decide, by decide, rfl, by decide, by decide, rfl⟩

/-- Claim C4: when a branch named `bot/update-cdn-<version>` already exists
(branch lookup exits 0) or a PR for it is already listed, no git command and
no PR-creation call is executed and the run exits with code 1. -/
theorem duplicate_branch_or_pr_aborts (w : World) (v : String)
    (hres : get_latest_version w = ([Effect.ghApiTags], Except.ok v))
    (hne : cdnUrl v ≠ w.default_plotly)
    (hreach : w.urlReachable = true)
    (hdup : w.branchRc = 0 ∨ w.prListOut ≠ "") :
    ∃ tr, main' w = (tr, ExitStatus.exit 1) ∧
      ∀ e ∈ tr, e.isGit = false ∧ e.isPrCreate = false := by
  rw [main_resolved hres, mainAfter_reachable hne hreach]
  by_cases hb : w.branchRc = 0
  · rw [create_pr_branch_exists hb]
    refine ⟨_, rfl, ?_⟩
    intro e he
    simp only [List.mem_cons, List.not_mem_nil, or_false] at he
    rcases he with rfl | rfl | rfl | rfl | rfl <;> exact ⟨rfl, rfl⟩
  · have hp : w.prListOut ≠ "" := hdup.resolve_left hb
    by_cases h4 : containsSub "HTTP 404" w.branchErr = true
    · rw [create_pr_pr_exists hb h4 hp]
      refine ⟨_, rfl, ?_⟩
      intro e he
      simp only [List.mem_cons, List.not_mem_nil, or_false] at he
      rcases he with rfl | rfl | rfl | rfl | rfl | rfl <;> exact ⟨rfl, rfl⟩
    · rw [create_pr_unexpected_err hb (Bool.eq_false_iff.mpr h4)]
      refine ⟨_, rfl, ?_⟩
      intro e he
      simp only [List.mem_cons, List.not_mem_nil, or_false] at he
      rcases he with rfl | rfl | rfl | rfl | rfl <;> exact ⟨rfl, rfl⟩

theorem duplicate_branch_or_pr_aborts_witness :
    ∃ tr, main' dupBranchWorld = (tr, ExitStatus.exit 1) ∧
      ∀ e ∈ tr, e.isGit = false ∧ e.isPrCreate = false :=
  duplicate_branch_or_pr_aborts dupBranchWorld "1.10.0" rfl (by decide) rfl
    (Or.inl rfl)

/-- Claim C6: when the new CDN URL is unreachable and an issue matching the
derived title is listed as OPEN, no issue-creation call is made, the link of
an OPEN matching issue is printed, and the run exits with code 1. -/
theorem open_issue_blocks_creation (w : World) (v : String)
    (hres : get_latest_version w = ([Effect.ghApiTags], Except.ok v))
    (hne : cdnUrl v ≠ w.default_plotly)
    (hreach : w.urlReachable = false)
    (i : Issue) (hi : i ∈ w.issueList) (hopen : i.state = "OPEN") :
    ∃ tr, main' w = (tr, ExitStatus.exit 1) ∧
      (∀ e ∈ tr, e.isIssueCreate = false) ∧
      ∃ j, j ∈ w.issueList ∧ j.state = "OPEN" ∧
        Effect.printLn ("https://github.com/" ++ w.repo ++ "/issues/"
          ++ toString j.number) ∈ tr := by
  rcases verify_issue_open (t := issueTitle v) i hi hopen with ⟨j, hjm, hjs, hv⟩
  rw [main_resolved hres, mainAfter_unreachable_open hne hreach hv]
  refine ⟨_, rfl, ?_, j, hjm, hjs, by simp⟩
  intro e he
  simp only [List.mem_cons, List.not_mem_nil, or_false] at he
  rcases he with rfl | rfl | rfl | rfl | rfl <;> exact rfl

theorem open_issue_blocks_creation_witness :
    ∃ tr, main' openIssueWorld = (tr, ExitStatus.exit 1) ∧
      (∀ e ∈ tr, e.isIssueCreate = false) ∧
      ∃ j, j ∈ openIssueWorld.issueList ∧ j.state = "OPEN" ∧
        Effect.printLn ("https://github.com/" ++ openIssueWorld.repo ++ "/issues/"
          ++ toString j.number) ∈ tr :=
  open_issue_blocks_creation openIssueWorld "1.10.0" rfl (by decide) rfl
    ⟨5, "OPEN"⟩ (by decide) rfl

/-- Claim C7: when the new CDN URL is unreachable and issues matching the
derived title exist but none is OPEN, no issue-creation call is made and the
run exits with code 0. -/
theorem closed_issue_run_is_noop (w : World) (v : String)
    (hres : get_latest_version w = ([Effect.ghApiTags], Except.ok v))
    (hne : cdnUrl v ≠ w.default_plotly)
    (hreach : w.urlReachable = false)
    (hnil : w.issueList ≠ [])
    (hcl : ∀ i ∈ w.issueList, i.state ≠ "OPEN") :
    ∃ tr, main' w = (tr, ExitStatus.exit 0) ∧
      ∀ e ∈ tr, e.isIssueCreate = false := by
  rw [main_resolved hres,
    mainAfter_unreachable_open hne hreach (verify_issue_closed hnil hcl)]
  refine ⟨_, rfl, ?_⟩
  intro e he
  simp only [List.mem_cons, List.not_mem_nil, or_false] at he
  rcases he with rfl | rfl | rfl | rfl <;> exact rfl

theorem closed_issue_run_is_noop_witness :
    ∃ tr, main' closedIssueWorld = (tr, ExitStatus.exit 0) ∧
      ∀ e ∈ tr, e.isIssueCreate = false :=
  closed_issue_run_is_noop closedIssueWorld "1.10.0" rfl (by decide) rfl
    (by decide) (by decide)

/-- Claim C8: when the new CDN URL is unreachable and no issue matching the
derived title exists, exactly one issue-creation call is made, with the
derived title and a body containing the unreachable URL. -/
theorem unreachable_url_files_one_issue (w : World) (v : String)
    (hres : get_latest_version w = ([Effect.ghApiTags], Except.ok v))
    (hne : cdnUrl v ≠ w.default_plotly)
    (hreach : w.urlReachable = false)
    (hempty : w.issueList = []) :
    ∃ tr st b, main' w = (tr, st) ∧
      List.countP (fun e => e.isIssueCreate) tr = 1 ∧
      Effect.ghIssueCreate (issueTitle v) b ∈ tr ∧
      ∃ pre post, b = pre ++ cdnUrl v ++ post := by
  rw [main_resolved hres, mainAfter_unreachable_create hne hreach hempty]
  refine ⟨_, _, "URL: " ++ cdnUrl v ++ " - invalid url", rfl, ?_, ?_,
    "URL: ", " - invalid url", ?_⟩
  · by_cases herr : w.issueCreateErr = "" <;>
      simp [create_issue, herr, Effect.isIssueCreate, List.countP_cons]
  · by_cases herr : w.issueCreateErr = "" <;> simp [create_issue, herr]
  · rfl

theorem unreachable_url_files_one_issue_witness :
    ∃ tr st b, main' noIssueWorld = (tr, st) ∧
      List.countP (fun e => e.isIssueCreate) tr = 1 ∧
      Effect.ghIssueCreate (issueTitle "1.10.0") b ∈ tr ∧
      ∃ pre post, b = pre ++ cdnUrl "1.10.0" ++ post :=
  unreachable_url_files_one_issue noIssueWorld "1.10.0" rfl (by decide) rfl rfl

/-- After a branch lookup that failed with `HTTP 404` in stderr, `create_pr`
always goes on to list PRs. -/
theorem create_pr_proceeds {w : World} {v : String} (h : w.branchRc ≠ 0)
    (h404 : containsSub "HTTP 404" w.branchErr = true) :
    Effect.ghPrList (branchName v) ∈ (create_pr w v).1 := by
  simp only [create_pr, h, h404]
  split_ifs <;> simp_all

/-- Claim C9: a run reaching the branch-existence lookup classifies its
outcome solely as follows: exit code 0 means the branch exists and the run
aborts with exit 1; a nonzero exit whose stderr contains `HTTP 404` means the
branch is absent and the run proceeds (to the PR listing); a nonzero exit
with any other stderr is printed and the run exits 1. -/
theorem branch_lookup_classification (w : World) (v : String)
    (hres : get_latest_version w = ([Effect.ghApiTags], Except.ok v))
    (hne : cdnUrl v ≠ w.default_plotly)
    (hreach : w.urlReachable = true) :
    (w.branchRc = 0 → ∃ tr, main' w = (tr, ExitStatus.exit 1) ∧
      Effect.eprintLn ("The branch " ++ branchName v ++ " already exists") ∈ tr) ∧
    (w.branchRc ≠ 0 → containsSub "HTTP 404" w.branchErr = true →
      ∃ tr st, main' w = (tr, st) ∧ Effect.ghPrList (branchName v) ∈ tr) ∧
    (w.branchRc ≠ 0 → containsSub "HTTP 404" w.branchErr = false →
      ∃ tr, main' w = (tr, ExitStatus.exit 1) ∧ Effect.eprintLn w.branchErr ∈ tr) := by
  rw [main_resolved hres, mainAfter_reachable hne hreach]
  refine ⟨fun hb => ?_, fun hb h4 => ?_, fun hb h4 => ?_⟩
  · rw [create_pr_branch_exists hb]
    exact ⟨_, rfl, by simp⟩
  · exact ⟨_, _, rfl, by simp [create_pr_proceeds hb h4]⟩
  · rw [create_pr_unexpected_err hb h4]
    exact ⟨_, rfl, by simp⟩

theorem branch_lookup_classification_witness :
    (baseWorld.branchRc = 0 → ∃ tr, main' baseWorld = (tr, ExitStatus.exit 1) ∧
      Effect.eprintLn ("The branch " ++ branchName "1.10.0" ++ " already exists") ∈ tr) ∧
    (baseWorld.branchRc ≠ 0 → containsSub "HTTP 404" baseWorld.branchErr = true →
      ∃ tr st, main' baseWorld = (tr, st) ∧ Effect.ghPrList (branchName "1.10.0") ∈ tr) ∧
    (baseWorld.branchRc ≠ 0 → containsSub "HTTP 404" baseWorld.branchErr = false →
      ∃ tr, main' baseWorld = (tr, ExitStatus.exit 1) ∧
        Effect.eprintLn baseWorld.branchErr ∈ tr) :=
  branch_lookup_classification baseWorld "1.10.0" rfl (by decide) rfl

/-- Claim C10: when the new CDN URL is reachable, the page-generator file is
rewritten before the duplicate-branch lookup runs; so even when the run
aborts with exit 1 because the branch or a PR for the version already
exists, the file write has already happened. -/
theorem file_rewritten_before_dup_checks (w : World) (v : String)
    (hres : get_latest_version w = ([Effect.ghApiTags], Except.ok v))
    (hne : cdnUrl v ≠ w.default_plotly)
    (hreach : w.urlReachable = true)
    (hdup : w.branchRc = 0 ∨
      (containsSub "HTTP 404" w.branchErr = true ∧ w.prListOut ≠ "")) :
    ∃ pre post, main' w = (pre ++ Effect.ghApiBranch (branchName v) :: post,
        ExitStatus.exit 1) ∧
      Effect.fileWrite (replaceFirst w.fileContent w.default_plotly (cdnUrl v)) ∈ pre := by
  rw [main_resolved hres, mainAfter_reachable hne hreach]
  refine ⟨[Effect.ghApiTags, Effect.headRequest (cdnUrl v),
    Effect.fileWrite (replaceFirst w.fileContent w.default_plotly (cdnUrl v))], ?_⟩
  by_cases hb : w.branchRc = 0
  · rw [create_pr_branch_exists hb]
    exact ⟨[Effect.eprintLn ("The branch " ++ branchName v ++ " already exists")],
      by simp, by simp⟩
  · rcases hdup with hb' | ⟨h4, hp⟩
    · exact absurd hb' hb
    · rw [create_pr_pr_exists hb h4 hp]
      exact ⟨[Effect.ghPrList (branchName v),
        Effect.eprintLn ("Pull request for '" ++ branchName v ++ "' already exists")],
        by simp, by simp⟩

theorem file_rewritten_before_dup_checks_witness :
    ∃ pre post, main' dupBranchWorld = (pre ++ Effect.ghApiBranch (branchName "1.10.0") :: post,
        ExitStatus.exit 1) ∧
      Effect.fileWrite (replaceFirst dupBranchWorld.fileContent dupBranchWorld.default_plotly
        (cdnUrl "1.10.0")) ∈ pre :=
  file_rewritten_before_dup_checks dupBranchWorld "1.10.0" rfl (by decide) rfl (Or.inl rfl)

/-- A successful resolution determines the whole result of
`get_latest_version`. -/
theorem resolvedVersion_ok {w : World} {v : String}
    (h : resolvedVersion w = some v) :
    get_latest_version w = ([Effect.ghApiTags], Except.ok v) := by
  apply get_latest_version_ok
  revert h
  unfold resolvedVersion
  cases (get_latest_version w).2 with
  | error st => simp
  | ok x => simp

/-- Claim C5 (amended): the failure signals the script inspects are fatal.
For each command in `CheckedCmd`, when the run reaches the point where that
command's result is checked and the checked signal indicates failure
(populated stderr for the tag listing and issue creation, nonzero exit
without `HTTP 404` in stderr for the branch lookup, nonzero exit for the
push and the PR creation), the error text is printed and the process exits
with code 1.  (Results of `git checkout`/`add`/`commit`, `gh pr list` and
`gh issue list` are never inspected.) -/
theorem checked_command_failures_are_fatal (c : CheckedCmd) (w : World)
    (hre : reaches c w = true) (hsig : failSignal c w = true) :
    ∃ tr, main' w = (tr, ExitStatus.exit 1) ∧ failPrintEffect c w ∈ tr := by
  cases c with
  | apiTags =>
    simp only [reaches] at hre
    rcases Option.isSome_iff_exists.mp hre with ⟨vs, hm⟩
    simp only [failSignal, bne_iff_ne, ne_eq] at hsig
    have hg : get_latest_version w
        = ([Effect.ghApiTags, Effect.printLn w.tagsErr],
           Except.error (ExitStatus.exit 1)) := by
      unfold get_latest_version
      rw [hm]
      simp [hsig]
    refine ⟨[Effect.ghApiTags, Effect.printLn w.tagsErr], ?_, by simp [failPrintEffect]⟩
    simp [main', hg]
  | apiBranch =>
    simp only [reaches] at hre
    revert hre
    cases hrv : resolvedVersion w with
    | none => intro hre; simp at hre
    | some v =>
      intro hre
      simp only [Bool.and_eq_true, bne_iff_ne, ne_eq] at hre
      obtain ⟨hnecdn, hreach⟩ := hre
      simp only [failSignal, Bool.and_eq_true, bne_iff_ne, ne_eq,
        Bool.not_eq_true'] at hsig
      obtain ⟨hbrc, h404⟩ := hsig
      rw [main_resolved (resolvedVersion_ok hrv), mainAfter_reachable hnecdn hreach,
        create_pr_unexpected_err hbrc h404]
      exact ⟨_, rfl, by simp [failPrintEffect]⟩
  | gitPush =>
    simp only [reaches] at hre
    revert hre
    cases hrv : resolvedVersion w with
    | none => intro hre; simp at hre
    | some v =>
      intro hre
      simp only [Bool.and_eq_true, bne_iff_ne, ne_eq, beq_iff_eq] at hre
      obtain ⟨⟨⟨⟨⟨hnecdn, hreach⟩, hbrc⟩, h404⟩, hpr⟩, hlog⟩ := hre
      simp only [failSignal, bne_iff_ne, ne_eq] at hsig
      rw [main_resolved (resolvedVersion_ok hrv), mainAfter_reachable hnecdn hreach,
        create_pr_push_fails hbrc h404 hpr hlog hsig]
      exact ⟨_, rfl, by simp [failPrintEffect]⟩
  | prCreate =>
    simp only [reaches] at hre
    revert hre
    cases hrv : resolvedVersion w with
    | none => intro hre; simp at hre
    | some v =>
      intro hre
      simp only [Bool.and_eq_true, bne_iff_ne, ne_eq, beq_iff_eq] at hre
      obtain ⟨⟨⟨⟨⟨⟨hnecdn, hreach⟩, hbrc⟩, h404⟩, hpr⟩, hlog⟩, hpush⟩ := hre
      simp only [failSignal, bne_iff_ne, ne_eq] at hsig
      rw [main_resolved (resolvedVersion_ok hrv), mainAfter_reachable hnecdn hreach,
        create_pr_fresh hbrc h404 hpr hlog hpush]
      simp only [if_pos hsig]
      exact ⟨_, rfl, by simp [failPrintEffect]⟩
  | issueCreate =>
    simp only [reaches] at hre
    revert hre
    cases hrv : resolvedVersion w with
    | none => intro hre; simp at hre
    | some v =>
      intro hre
      simp only [Bool.and_eq_true, bne_iff_ne, ne_eq, Bool.not_eq_true',
        List.isEmpty_iff] at hre
      obtain ⟨⟨hnecdn, hreach⟩, hempty⟩ := hre
      simp only [failSignal, bne_iff_ne, ne_eq] at hsig
      have hci : create_issue w (issueTitle v) ("URL: " ++ cdnUrl v ++ " - invalid url")
          = ([Effect.ghIssueCreate (issueTitle v) ("URL: " ++ cdnUrl v ++ " - invalid url"),
              Effect.printLn w.issueCreateErr], some 1) := by
        simp [create_issue, hsig]
      rw [main_resolved (resolvedVersion_ok hrv),
        mainAfter_unreachable_create hnecdn hreach hempty, hci]
      exact ⟨_, rfl, by simp [failPrintEffect]⟩

theorem checked_command_failures_are_fatal_witness :
    ∃ tr, main' pushFailWorld = (tr, ExitStatus.exit 1) ∧
      failPrintEffect CheckedCmd.gitPush pushFailWorld ∈ tr :=
  checked_command_failures_are_fatal CheckedCmd.gitPush pushFailWorld
    (by decide) (by decide)

/-- Claim C5 counterexample: at `baseWorld` the branch-lookup command is
invoked and returns a nonzero exit code with populated stderr, yet the run
proceeds and exits 0; so a nonzero exit or populated stderr from a
shelled-out command is not fatal in general. -/
theorem command_failure_not_always_fatal :
    baseWorld.branchRc ≠ 0 ∧ baseWorld.branchErr ≠ "" ∧
    Effect.ghApiBranch (branchName "1.10.0") ∈ (main' baseWorld).1 ∧
    (main' baseWorld).2 = ExitStatus.exit 0 := by
  refine ⟨by decide, by decide, by decide, rfl⟩
